import Mathlib

/-!
Verification of the `python-cli-ai-coder` repository: a shallow embedding of
its sandboxed file store (`src/utils/file_operations.py`), command runner
(`src/utils/command_operations.py`), agent loop (`src/core/project_generator.py`)
and the CLI working-directory handling (`src/cli/main.py`), together with
theorems settling the specification's claims about them.

Filesystem state is modelled explicitly (an association list of absolute
normalized file paths to contents plus a list of directory paths), the LLM
provider is modelled as a script `Nat → Except String ModelReply` (the `n`-th
provider call either raises with an error string or returns a reply), and the
shell is an oracle `String → CommandResult`.
-/

/-! ## String primitives

Structurally recursive character-list versions of the string operations the
source uses (Python strings are character sequences, so `List Char` is the
natural carrier; the core `String` loops are avoided because they do not
reduce inside the kernel). -/

/-- Split a character list at every occurrence of `sep` (Python
`str.split(sep)` for a one-character separator: `""` gives `[""]`,
`"/"` gives `["", ""]`). -/
def splitListOn (sep : Char) : List Char → List (List Char)
  | [] => [[]]
  | c :: t =>
    let r := splitListOn sep t
    if c = sep then [] :: r
    else match r with
      | h :: t1 => (c :: h) :: t1
      | [] => [[c]]

/-- Python `p.split("/")` as a list of strings. -/
def strSplitSlash (p : String) : List String :=
  (splitListOn '/' p.data).map String.mk

/-- Python `str.startswith`. -/
def strStartsWith (s pre : String) : Bool := pre.data.isPrefixOf s.data

/-- Python `str.endswith`. -/
def strEndsWith (s suf : String) : Bool := suf.data.isSuffixOf s.data

/-- Join strings with a separator (Python `sep.join(parts)`). -/
def strJoinSep (sep : String) : List String → String
  | [] => ""
  | [x] => x
  | x :: y :: t => x ++ sep ++ strJoinSep sep (y :: t)

/-- Python slicing `s[n:]` (by characters). -/
def strDropChars (s : String) (n : Nat) : String := String.mk (s.data.drop n)

/-- Python `len(s)` (in characters). -/
def strLen (s : String) : Nat := s.data.length

/-! ## Path model: `os.path` (POSIX) as used by the source -/

/-- `os.path.isabs` (POSIX): a path is absolute when it starts with a slash. -/
def pyIsAbs (p : String) : Bool := strStartsWith p "/"

/-- `posixpath.normpath`: collapse repeated slashes and `.`/`..` components,
keeping the special two-initial-slash case, returning `"."` for an empty
result. -/
def pyNormpath (path : String) : String :=
  if path = "" then "." else
  let initialSlashes : Nat :=
    if strStartsWith path "//" ∧ ¬ strStartsWith path "///" then 2
    else if strStartsWith path "/" then 1 else 0
  let comps := strSplitSlash path
  let newComps := comps.foldl (fun acc comp =>
    if comp = "" ∨ comp = "." then acc
    else if comp ≠ ".." ∨ (initialSlashes = 0 ∧ acc = []) ∨ acc.getLast? = some ".." then
      acc ++ [comp]
    else acc.dropLast) []
  let res := String.mk (List.replicate initialSlashes '/') ++ strJoinSep "/" newComps
  if res = "" then "." else res

/-- `posixpath.join(cwd, p)`: as invoked by `abspath` (second argument may be
relative or absolute). -/
def pyJoin (a b : String) : String :=
  if pyIsAbs b then b
  else if a = "" ∨ strEndsWith a "/" then a ++ b
  else a ++ "/" ++ b

/-- `os.path.abspath(p)` with the process working directory `cwd` made
explicit: join with the cwd when relative, then normalize. -/
def pyAbspath (cwd p : String) : String :=
  if pyIsAbs p then pyNormpath p else pyNormpath (pyJoin cwd p)

/-- `posixpath.dirname(p)`: everything up to the last slash, with trailing
slashes stripped unless the head consists only of slashes. -/
def pyDirname (p : String) : String :=
  let comps := strSplitSlash p
  match comps with
  | [] => ""
  | [_] => ""
  | _ =>
    let head := strJoinSep "/" (comps.dropLast) ++ "/"
    if head.data.all (· = '/') then head else
      strJoinSep "/" (comps.dropLast)

/-- `pathlib.PurePath(p).name`: the final non-empty path component. -/
def pyPathName (p : String) : String :=
  ((((strSplitSlash p).filter (· ≠ "")).getLast?).getD "")

/-! ## Sandboxed file store (`src/utils/file_operations.py`) -/

/-- Explicit filesystem state: files as an association list from absolute
normalized path to content, plus the set (list) of absolute normalized
directory paths. -/
structure FS where
  files : List (String × String)
  dirs : List String
deriving Repr, DecidableEq

/-- Content of the file at absolute path `p`, if a file exists there. -/
def FS.lookupFile (fs : FS) (p : String) : Option String :=
  (fs.files.find? (fun e => e.1 = p)).map (·.2)

/-- `os.path.exists` over the model. -/
def FS.exists (fs : FS) (p : String) : Bool :=
  (fs.lookupFile p).isSome ∨ p ∈ fs.dirs

/-- Store `content` at absolute path `p`, replacing any previous entry. -/
def FS.setFile (fs : FS) (p content : String) : FS :=
  { fs with files := (fs.files.filter (fun e => e.1 ≠ p)) ++ [(p, content)] }

/-- All non-trivial prefixes of an absolute normalized path:
`"/a/b"` gives `["/a", "/a/b"]`; used to model `os.makedirs` creating
intermediate directories. -/
def absPrefixes (p : String) : List String :=
  let comps := (strSplitSlash p).filter (· ≠ "")
  (List.range comps.length).map (fun i => "/" ++ strJoinSep "/" (comps.take (i + 1)))

/-- `os.makedirs(p, exist_ok=True)` over the model: add the directory and all
missing intermediate directories. Fails (first component `false`) when the
target or one of its ancestors already exists as a regular file. -/
def FS.makedirs (fs : FS) (p : String) : Bool × FS :=
  if (absPrefixes p).any (fun q => (fs.lookupFile q).isSome) then (false, fs)
  else (true, { fs with dirs := fs.dirs ++ (absPrefixes p).filter (fun q => q ∉ fs.dirs) })

/-- `is_safe_path(path)`: compares `os.path.abspath(path)` against
`os.path.abspath(os.getcwd())` with `str.startswith` — a plain string-prefix
test. -/
def is_safe_path (cwd path : String) : Bool :=
  strStartsWith (pyAbspath cwd path) (pyAbspath cwd cwd)

/-- The specification's sandboxing relation (not the code's): `p` is a
descendant of (or equal to) the root directory `root`. -/
def isDescendantOf (root p : String) : Bool :=
  p = root ∨ strStartsWith p (root ++ "/")

/-- `read_file(filename)`: rejects unsafe paths, returns the content when the
file exists, `None` otherwise (`FileNotFoundError` and any other `open` error
are caught and turned into `None`). -/
def read_file (cwd : String) (fs : FS) (filename : String) : Option String :=
  if ¬ is_safe_path cwd filename then none
  else fs.lookupFile (pyAbspath cwd filename)

/-- The metadata record assembled by `get_file_metadata` (timestamps and the
permission string are environment-supplied values outside the model). -/
structure FileMetadata where
  name : String
  size : Nat
  is_directory : Bool
  is_file : Bool
  absolute_path : String
deriving Repr, DecidableEq

/-- `get_file_metadata(filename)`: rejects unsafe paths, `None` when the path
does not exist, otherwise the metadata record. -/
def get_file_metadata (cwd : String) (fs : FS) (filename : String) : Option FileMetadata :=
  if ¬ is_safe_path cwd filename then none
  else
    let ap := pyAbspath cwd filename
    if ¬ fs.exists ap then none
    else some
      { name := pyPathName filename
        size := ((fs.lookupFile ap).getD "").length
        is_directory := ap ∈ fs.dirs
        is_file := (fs.lookupFile ap).isSome
        absolute_path := ap }

/-- The listing returned by `list_directory_contents`. -/
structure DirListing where
  files : List String
  directories : List String
  total_files : Nat
  total_directories : Nat
deriving Repr, DecidableEq

/-- `p` names a direct child of directory `ad`: `ad ++ "/"` is a prefix and
the remainder has no further slash. -/
def isChildOf (ad p : String) : Bool :=
  strStartsWith p (ad ++ "/") ∧ ¬ (strDropChars p (strLen ad + 1)).data.contains '/'

/-- `list_directory_contents(directory)`: rejects unsafe paths, `None` when
the directory is missing or is not a directory, otherwise the children split
into files and directories with their counts. -/
def list_directory_contents (cwd : String) (fs : FS) (directory : String) : Option DirListing :=
  if ¬ is_safe_path cwd directory then none
  else
    let ad := pyAbspath cwd directory
    if ¬ fs.exists ad then none
    else if ad ∉ fs.dirs then none
    else
      let fileChildren := (fs.files.map (·.1)).filterMap
        (fun p => if isChildOf ad p then some (strDropChars p (strLen ad + 1)) else none)
      let dirChildren := fs.dirs.filterMap
        (fun p => if isChildOf ad p then some (strDropChars p (strLen ad + 1)) else none)
      some
        { files := fileChildren
          directories := dirChildren
          total_files := fileChildren.length
          total_directories := dirChildren.length }

/-- `write_to_file(filename, content, mode)`: rejects unsafe paths; creates
the missing parent directories; `open(filename, mode)` fails (caught, `False`)
when the target is an existing directory or a parent component is a file;
mode `"a"` appends to any existing content, every other mode overwrites. -/
def write_to_file (cwd : String) (fs : FS) (filename content mode : String) : Bool × FS :=
  if ¬ is_safe_path cwd filename then (false, fs)
  else
    let ap := pyAbspath cwd filename
    let dir := pyDirname filename
    let (mkOk, fs1) :=
      if dir ≠ "" ∧ ¬ fs.exists (pyAbspath cwd dir) then fs.makedirs (pyAbspath cwd dir)
      else (true, fs)
    if ¬ mkOk then (false, fs)
    else if ap ∈ fs1.dirs then (false, fs1)
    else if mode = "a" then
      (true, fs1.setFile ap (((fs1.lookupFile ap).getD "") ++ content))
    else (true, fs1.setFile ap content)

/-- `create_directory(directory_name)`: rejects unsafe paths, then
`os.makedirs(..., exist_ok=True)` (idempotent, creates intermediates, fails
when a regular file occupies a component). -/
def create_directory (cwd : String) (fs : FS) (directory_name : String) : Bool × FS :=
  if ¬ is_safe_path cwd directory_name then (false, fs)
  else fs.makedirs (pyAbspath cwd directory_name)

/-! ## Command runner (`src/utils/command_operations.py`) -/

/-- The record built from a completed subprocess. -/
structure CommandResult where
  stdout : String
  stderr : String
  returncode : Int
deriving Repr, DecidableEq

/-- The whitespace characters recognised by Python's `str.split()` (ASCII). -/
def isPySpace (c : Char) : Bool :=
  c = ' ' ∨ c = '\t' ∨ c = '\n' ∨ c = '\r' ∨ c = '\x0b' ∨ c = '\x0c'

/-- Split a character list at every character satisfying `p`. -/
def splitListPred (p : Char → Bool) : List Char → List (List Char)
  | [] => [[]]
  | c :: t =>
    let r := splitListPred p t
    if p c then [] :: r
    else match r with
      | h :: t1 => (c :: h) :: t1
      | [] => [[c]]

/-- Python `str.split()` with no argument: split on whitespace runs,
discarding empty tokens. -/
def pySplitWhitespace (s : String) : List String :=
  ((splitListPred (fun c => isPySpace c) s.data).map String.mk).filter (· ≠ "")

/-- Python `str.lower()` (ASCII case mapping). -/
def pyLower (s : String) : String := String.mk (s.data.map Char.toLower)

/-- `is_safe_command(command)`: `False` exactly when `"sudo"` occurs among the
lowercased whitespace-delimited tokens. -/
def is_safe_command (command : String) : Bool :=
  ¬ ("sudo" ∈ pySplitWhitespace (pyLower command))

/-- `run_command(command)` with the shell as an oracle. The second component
records the commands actually handed to a subprocess, so that "the subprocess
is never spawned" is visible in the model. -/
def run_command (shell : String → CommandResult) (command : String) :
    Option CommandResult × List String :=
  if ¬ is_safe_command command then (none, [])
  else (some (shell command), [command])

/-! ## Tool dispatcher (`ProjectGenerator._handle_tool_calls`) -/

/-- A tool invocation: one of the six catalogued functions with its parsed
arguments (the JSON default `mode="w"` of `write_to_file` is applied at this
layer, so `mode` is always present). -/
inductive ToolFn where
  | read_file (filename : String)
  | get_file_metadata (filename : String)
  | list_directory_contents (directory : String)
  | write_to_file (filename content mode : String)
  | run_command (command : String)
  | create_directory (directory_name : String)
deriving Repr, DecidableEq

/-- A tool call as received from the model: correlation id plus function. -/
structure ToolCall where
  id : Nat
  fn : ToolFn
deriving Repr, DecidableEq

/-- The JSON-serializable payload `_handle_tool_calls` produces for one call
(`json.dumps(response_content)`). -/
inductive ToolResult where
  | jnull
  | jstr (s : String)
  | jsuccess (b : Bool)
  | jlisting (l : DirListing)
  | jmeta (m : FileMetadata)
  | jcmd (c : CommandResult)
deriving Repr, DecidableEq

/-- One message of the transcript. -/
inductive Msg where
  | system (content : String)
  | user (content : String)
  | assistant (content : String) (tool_calls : List ToolCall)
  | tool (tool_call_id : Nat) (output : ToolResult)
deriving Repr, DecidableEq

/-- Dispatch one tool function against the filesystem and shell, producing
the serialized result and the updated filesystem. -/
def dispatchTool (cwd : String) (shell : String → CommandResult) (fs : FS) :
    ToolFn → ToolResult × FS
  | .read_file f =>
    (match read_file cwd fs f with | some s => .jstr s | none => .jnull, fs)
  | .get_file_metadata f =>
    (match get_file_metadata cwd fs f with | some m => .jmeta m | none => .jnull, fs)
  | .list_directory_contents d =>
    (match list_directory_contents cwd fs d with | some l => .jlisting l | none => .jnull, fs)
  | .write_to_file f c m =>
    let r := write_to_file cwd fs f c m
    (.jsuccess r.1, r.2)
  | .run_command cmd =>
    (match (run_command shell cmd).1 with | some r => .jcmd r | none => .jnull, fs)
  | .create_directory d =>
    let r := create_directory cwd fs d
    (.jsuccess r.1, r.2)

/-- `_handle_tool_calls`: dispatch the calls sequentially in the order
requested, collecting one `(tool_call_id, output)` pair per call. -/
def handleToolCalls (cwd : String) (shell : String → CommandResult) (fs : FS)
    (calls : List ToolCall) : List (Nat × ToolResult) × FS :=
  calls.foldl (fun acc tc =>
    let r := dispatchTool cwd shell acc.2 tc.fn
    (acc.1 ++ [(tc.id, r.1)], r.2)) ([], fs)

/-! ## Agent loop (`ProjectGenerator.generate_project` / `add_feature_to_project`) -/

/-- One entry of the action log: either a dispatched tool call
(`{"step", "action", "args", "result"}` — the function with its arguments is
`fn`) or a provider failure (`{"step", "error"}`). -/
inductive ActionRecord where
  | action (step : Nat) (fn : ToolFn) (result : ToolResult)
  | failure (step : Nat) (error : String)
deriving Repr, DecidableEq

/-- One reply of the model on a successful provider call: textual content and
a (possibly empty) list of tool calls. -/
structure ModelReply where
  content : String
  tool_calls : List ToolCall
deriving Repr, DecidableEq

/-- The provider as a script: the `n`-th call (counting from 0, across the
loop and the post-loop summary call) either raises or returns a reply. -/
def Script : Type := Nat → Except String ModelReply

/-- `listIsInfix needle hay`: `needle` occurs as a contiguous run in `hay`
(Python's `in` on strings, on the character lists). -/
def listIsInfix (needle : List Char) : List Char → Bool
  | [] => needle = []
  | c :: t => needle.isPrefixOf (c :: t) || listIsInfix needle t

/-- Python `needle in hay` for strings. -/
def strContains (hay needle : String) : Bool := listIsInfix needle.data hay.data

/-- The completion-phrase test of `generate_project` on a plain-text reply. -/
def genCompletionPhrase (content : String) : Bool :=
  strContains (pyLower content) "project generation is complete" ||
  strContains (pyLower content) "project structure is now complete"

/-- The completion-phrase test of `add_feature_to_project`. -/
def featCompletionPhrase (content : String) : Bool :=
  strContains (pyLower content) "feature implementation is complete" ||
  strContains (pyLower content) "feature has been successfully added"

/-- The synthetic continue message of the generation loop. -/
def genContinueMsg : String :=
  "Please continue with the next steps to complete the project structure."

/-- The synthetic continue message of the feature-addition loop. -/
def featContinueMsg : String :=
  "Please continue with the next steps to complete the feature implementation."

/-- The post-loop summary request of `generate_project`. -/
def genSummaryRequest : String :=
  "Provide a summary of what you have created including the project structure, files, and key features."

/-- The post-loop summary request of `add_feature_to_project`. -/
def featSummaryRequest : String :=
  "Provide a summary of the feature you have added, including what files were modified or created and how the feature works."

/-- The loop budget of `generate_project` (`max_steps = 25`). -/
def genMaxSteps : Nat := 25

/-- The loop budget of `add_feature_to_project` (`max_steps = 15`). -/
def featMaxSteps : Nat := 15

/-- `while step < max_steps` outcome of one iteration. -/
inductive StepOutcome where
  | next
  | done
  | failed
deriving Repr, DecidableEq

/-- Mutable state of one `generate_project` invocation: transcript, action
log, the tracking lists, the filesystem, the number of provider calls made so
far, and the step counter. -/
structure GenState where
  messages : List Msg
  actions : List ActionRecord
  generated_files : List String
  generated_dirs : List String
  fs : FS
  calls : Nat
  step : Nat
deriving Repr, DecidableEq

/-- Initial `GenState`: seeded transcript, empty logs, step counter 0. -/
def initGenState (initMsgs : List Msg) (fs : FS) : GenState :=
  { messages := initMsgs, actions := [], generated_files := [], generated_dirs := []
    fs := fs, calls := 0, step := 0 }

/-- The per-call bookkeeping of the generation loop: for each
`(tool call, response)` pair in order, append the directory name on
`create_directory`, the filename on `write_to_file` (unconditionally — the
response is not consulted), and always one action record. -/
def trackGen (step : Nat) (pairs : List (ToolCall × (Nat × ToolResult)))
    (files dirs : List String) (actions : List ActionRecord) :
    List String × List String × List ActionRecord :=
  pairs.foldl (fun acc p =>
    let rec0 := ActionRecord.action step p.1.fn p.2.2
    match p.1.fn with
    | .create_directory d => (acc.1, acc.2.1 ++ [d], acc.2.2 ++ [rec0])
    | .write_to_file f _ _ => (acc.1 ++ [f], acc.2.1, acc.2.2 ++ [rec0])
    | _ => (acc.1, acc.2.1, acc.2.2 ++ [rec0])) (files, dirs, actions)

/-- One iteration of the generation loop: increment the step counter, make
the provider call; on a raise, log the failure and abort; on tool calls,
dispatch them, track them, and append the tool messages; on plain text, stop
when a completion phrase occurs, otherwise append the continue message. -/
def genStep (cwd : String) (shell : String → CommandResult) (script : Script)
    (st : GenState) : StepOutcome × GenState :=
  let step := st.step + 1
  match script st.calls with
  | .error e =>
    (.failed, { st with
                step := step
                calls := st.calls + 1
                actions := st.actions ++ [.failure step e] })
  | .ok r =>
    let st1 : GenState := { st with
                            step := step
                            calls := st.calls + 1
                            messages := st.messages ++ [.assistant r.content r.tool_calls] }
    if r.tool_calls ≠ [] then
      let hr := handleToolCalls cwd shell st1.fs r.tool_calls
      let tr := trackGen step (r.tool_calls.zip hr.1) st1.generated_files st1.generated_dirs st1.actions
      (.next, { st1 with
                fs := hr.2
                generated_files := tr.1
                generated_dirs := tr.2.1
                actions := tr.2.2
                messages := st1.messages ++ hr.1.map (fun p => Msg.tool p.1 p.2) })
    else if genCompletionPhrase r.content then (.done, st1)
    else (.next, { st1 with messages := st1.messages ++ [.user genContinueMsg] })

/-- The bounded loop (`while step < max_steps`), with the remaining budget as
fuel: stop early on completion or failure. -/
def genLoop (cwd : String) (shell : String → CommandResult) (script : Script) :
    Nat → GenState → GenState
  | 0, st => st
  | n + 1, st =>
    match genStep cwd shell script st with
    | (.next, st1) => genLoop cwd shell script n st1
    | (_, st1) => st1

/-- The summary record `generate_project` returns (the wall-clock duration
and the echoed feature map are presentation data outside the model). -/
structure GenResult where
  project_name : String
  project_type : String
  total_steps : Nat
  total_files : Nat
  total_directories : Nat
  files_created : List String
  directories_created : List String
  summary : String
  actions : List ActionRecord
deriving Repr, DecidableEq

/-- The post-loop phase of `generate_project`: append the summary request and
issue one more provider call. The call is not guarded by `try`, so a raise
propagates out of `generate_project` (modelled as `Except.error`). -/
def genFinish (script : Script) (project_type project_name : String) (st : GenState) :
    GenState × Except String GenResult :=
  let st1 : GenState := { st with
                          messages := st.messages ++ [.user genSummaryRequest]
                          calls := st.calls + 1 }
  match script st.calls with
  | .error e => (st1, .error e)
  | .ok r =>
    (st1, .ok
      { project_name := project_name
        project_type := project_type
        total_steps := st.step
        total_files := st.generated_files.length
        total_directories := st.generated_dirs.length
        files_created := st.generated_files
        directories_created := st.generated_dirs
        summary := r.content
        actions := st.actions })

/-- `ProjectGenerator.generate_project`: run the loop with budget 25 from the
seeded transcript, then the summary phase. -/
def generate_project (cwd : String) (shell : String → CommandResult) (script : Script)
    (project_type project_name : String) (initMsgs : List Msg) (fs : FS) :
    GenState × Except String GenResult :=
  genFinish script project_type project_name
    (genLoop cwd shell script genMaxSteps (initGenState initMsgs fs))

/-- Mutable state of one `add_feature_to_project` invocation. -/
structure FeatState where
  messages : List Msg
  actions : List ActionRecord
  modified_files : List String
  new_files : List String
  new_dirs : List String
  fs : FS
  calls : Nat
  step : Nat
deriving Repr, DecidableEq

/-- Initial `FeatState`. -/
def initFeatState (initMsgs : List Msg) (fs : FS) : FeatState :=
  { messages := initMsgs, actions := [], modified_files := [], new_files := []
    new_dirs := [], fs := fs, calls := 0, step := 0 }

/-- The per-call bookkeeping of the feature-addition loop: a `write_to_file`
call counts as a new file when its mode is `"w"` and the filename is absent
from the caller-supplied existing file list, and as a modified file otherwise
(deduplicated); `create_directory` appends the directory; every call appends
one action record. -/
def trackFeat (existing_files : List String) (step : Nat)
    (pairs : List (ToolCall × (Nat × ToolResult)))
    (modified newF dirs : List String) (actions : List ActionRecord) :
    List String × List String × List String × List ActionRecord :=
  pairs.foldl (fun acc p =>
    let rec0 := ActionRecord.action step p.1.fn p.2.2
    match p.1.fn with
    | .create_directory d => (acc.1, acc.2.1, acc.2.2.1 ++ [d], acc.2.2.2 ++ [rec0])
    | .write_to_file f _ m =>
      if m = "w" ∧ f ∉ existing_files then
        (acc.1, acc.2.1 ++ [f], acc.2.2.1, acc.2.2.2 ++ [rec0])
      else if f ∈ acc.1 then (acc.1, acc.2.1, acc.2.2.1, acc.2.2.2 ++ [rec0])
      else (acc.1 ++ [f], acc.2.1, acc.2.2.1, acc.2.2.2 ++ [rec0])
    | _ => (acc.1, acc.2.1, acc.2.2.1, acc.2.2.2 ++ [rec0])) (modified, newF, dirs, actions)

/-- One iteration of the feature-addition loop (same shape as `genStep`, with
the feature phrases, continue message and classification bookkeeping). -/
def featStep (cwd : String) (shell : String → CommandResult) (script : Script)
    (existing_files : List String) (st : FeatState) : StepOutcome × FeatState :=
  let step := st.step + 1
  match script st.calls with
  | .error e =>
    (.failed, { st with
                step := step
                calls := st.calls + 1
                actions := st.actions ++ [.failure step e] })
  | .ok r =>
    let st1 : FeatState := { st with
                             step := step
                             calls := st.calls + 1
                             messages := st.messages ++ [.assistant r.content r.tool_calls] }
    if r.tool_calls ≠ [] then
      let hr := handleToolCalls cwd shell st1.fs r.tool_calls
      let tr := trackFeat existing_files step (r.tool_calls.zip hr.1)
        st1.modified_files st1.new_files st1.new_dirs st1.actions
      (.next, { st1 with
                fs := hr.2
                modified_files := tr.1
                new_files := tr.2.1
                new_dirs := tr.2.2.1
                actions := tr.2.2.2
                messages := st1.messages ++ hr.1.map (fun p => Msg.tool p.1 p.2) })
    else if featCompletionPhrase r.content then (.done, st1)
    else (.next, { st1 with messages := st1.messages ++ [.user featContinueMsg] })

/-- The bounded feature-addition loop. -/
def featLoop (cwd : String) (shell : String → CommandResult) (script : Script)
    (existing_files : List String) : Nat → FeatState → FeatState
  | 0, st => st
  | n + 1, st =>
    match featStep cwd shell script existing_files st with
    | (.next, st1) => featLoop cwd shell script existing_files n st1
    | (_, st1) => st1

/-- The summary record `add_feature_to_project` returns (the wall-clock
duration is presentation data outside the model). -/
structure FeatResult where
  project_name : String
  project_type : String
  feature_description : String
  total_steps : Nat
  total_new_files : Nat
  total_modified_files : Nat
  total_new_directories : Nat
  new_files : List String
  modified_files : List String
  new_directories : List String
  summary : String
  actions : List ActionRecord
deriving Repr, DecidableEq

/-- The post-loop phase of `add_feature_to_project`: one more unguarded
provider call for the summary; a raise propagates. -/
def featFinish (script : Script) (project_type project_name feature_description : String)
    (st : FeatState) : FeatState × Except String FeatResult :=
  let st1 : FeatState := { st with
                           messages := st.messages ++ [.user featSummaryRequest]
                           calls := st.calls + 1 }
  match script st.calls with
  | .error e => (st1, .error e)
  | .ok r =>
    (st1, .ok
      { project_name := project_name
        project_type := project_type
        feature_description := feature_description
        total_steps := st.step
        total_new_files := st.new_files.length
        total_modified_files := st.modified_files.length
        total_new_directories := st.new_dirs.length
        new_files := st.new_files
        modified_files := st.modified_files
        new_directories := st.new_dirs
        summary := r.content
        actions := st.actions })

/-- `ProjectGenerator.add_feature_to_project`: run the loop with budget 15
over the existing file list from `project_info`, then the summary phase. -/
def add_feature_to_project (cwd : String) (shell : String → CommandResult) (script : Script)
    (project_type project_name feature_description : String)
    (existing_files : List String) (initMsgs : List Msg) (fs : FS) :
    FeatState × Except String FeatResult :=
  featFinish script project_type project_name feature_description
    (featLoop cwd shell script existing_files featMaxSteps (initFeatState initMsgs fs))

/-! ## CLI working-directory handling (`src/cli/main.py`) -/

/-- The working-directory flow of `main`: save `original_dir`, `os.chdir` into
the project folder when it differs; on cancellation restore with
`os.chdir(original_dir)`; on normal completion (declining the add-features
offer) rebind `original_dir = os.getcwd()` — the current directory, i.e. the
project folder — and `os.chdir` to it unless it equals the parent directory of
the project folder. The function returns the final process working directory
(as the absolute path `os.getcwd()` would report). -/
def mainFinalCwd (original_dir project_folder : String) (cancelled : Bool) : String :=
  let cwd1 :=
    if pyAbspath original_dir original_dir ≠ pyAbspath original_dir project_folder then
      pyAbspath original_dir project_folder
    else pyAbspath original_dir original_dir
  if cancelled then pyAbspath cwd1 original_dir
  else
    let od := cwd1
    if od ≠ pyDirname (pyAbspath cwd1 project_folder) then pyAbspath cwd1 od else cwd1

/-! ## Concrete fixtures used by witnesses and counterexamples -/

/-- A shell oracle echoing the command on stdout with exit code 0. -/
def shellEcho : String → CommandResult := fun c => { stdout := c, stderr := "", returncode := 0 }

/-- A demonstration filesystem: the working directory and its ancestors. -/
def fsDemo : FS := ⟨[], ["/home", "/home/user", "/home/user/proj"]⟩

/-- The demonstration working directory. -/
def cwdDemo : String := "/home/user/proj"

/-- A scripted model that never emits a completion phrase and never raises. -/
def scriptKeepGoing : Script := fun _ => .ok ⟨"continuing", []⟩

/-- A scripted model replying with a plain-text completion phrase. -/
def scriptDone : Script := fun _ => .ok ⟨"The project generation is complete.", []⟩

/-- A scripted model that completes on the first turn, then raises on the
post-loop summary call. -/
def scriptDoneThenRaise : Script := fun n =>
  if n = 0 then .ok ⟨"The project generation is complete.", []⟩ else .error "boom"

/-- A scripted model for which every provider call raises. -/
def scriptAlwaysRaise : Script := fun _ => .error "connection refused"

/-- A scripted model that raises on the first call and succeeds afterwards. -/
def scriptRaiseThenOk : Script := fun n =>
  if n = 0 then .error "io error" else .ok ⟨"summary text", []⟩

/-- A scripted model writing the same new file twice in overwrite mode, then
completing. -/
def scriptDupNew : Script := fun n =>
  if n = 0 then
    .ok ⟨"", [⟨1, .write_to_file "a.py" "x" "w"⟩, ⟨2, .write_to_file "a.py" "y" "w"⟩]⟩
  else .ok ⟨"feature implementation is complete", []⟩

/-- A scripted model writing a file in overwrite mode and then appending to
it, then completing. -/
def scriptNewThenAppend : Script := fun n =>
  if n = 0 then
    .ok ⟨"", [⟨1, .write_to_file "a.py" "x" "w"⟩, ⟨2, .write_to_file "a.py" "y" "a"⟩]⟩
  else .ok ⟨"feature implementation is complete", []⟩

/-- A scripted model issuing two identical writes to a path outside the
working directory (both fail), then completing. -/
def scriptUnsafeWrites : Script := fun n =>
  if n = 0 then
    .ok ⟨"", [⟨1, .write_to_file "/etc/passwd" "x" "w"⟩, ⟨2, .write_to_file "/etc/passwd" "x" "w"⟩]⟩
  else .ok ⟨"project generation is complete", []⟩

/-- A scripted model appending to `README.md` (mode `"a"`). -/
def scriptAppendReadme : Script := fun _ =>
  .ok ⟨"", [⟨1, .write_to_file "README.md" "x" "a"⟩]⟩

/-- A scripted model overwriting `newfile.py` (mode `"w"`). -/
def scriptWriteNewfile : Script := fun _ =>
  .ok ⟨"", [⟨1, .write_to_file "newfile.py" "x" "w"⟩]⟩

/-- Projection used to state the tracking claims: the filename of a
`write_to_file` call. -/
def writeNameOf (tc : ToolCall) : Option String :=
  match tc.fn with
  | .write_to_file f _ _ => some f
  | _ => none

/-- Projection used to state the tracking claims: the directory name of a
`create_directory` call. -/
def dirNameOf (tc : ToolCall) : Option String :=
  match tc.fn with
  | .create_directory d => some d
  | _ => none

/-! ## Claim theorems -/

/-- C1: the claim states that every file-store operation rejects (failure
sentinel, no mutation) any path whose resolved absolute form is not a
descendant of the working root. The code instead compares with a plain string
prefix: with working root `/home/user/proj`, the path
`/home/user/project2/secret.txt` resolves to itself, is not a descendant of
the root, yet passes `is_safe_path` and `write_to_file` both reports success
and mutates the filesystem (creating `/home/user/project2` and the file).
This contradicts the module's own documentation ("operations are restricted
to the current working directory for security"). -/
theorem sandbox_prefix_escape :
    isDescendantOf "/home/user/proj"
      (pyAbspath "/home/user/proj" "/home/user/project2/secret.txt") = false ∧
    is_safe_path "/home/user/proj" "/home/user/project2/secret.txt" = true ∧
    (write_to_file "/home/user/proj" fsDemo "/home/user/project2/secret.txt" "top secret" "w").1
      = true ∧
    ((write_to_file "/home/user/proj" fsDemo
        "/home/user/project2/secret.txt" "top secret" "w").2).lookupFile
      "/home/user/project2/secret.txt" = some "top secret" := by
  refine ⟨by decide, by decide, by decide, by decide⟩

/-- C2: a command whose lowercased whitespace-delimited tokens contain
`"sudo"` makes `run_command` return `None` with no subprocess spawned; any
other command is executed via the shell and its stdout, stderr and exit code
are returned as-is, whatever the exit code. -/
theorem run_command_sudo_policy (shell : String → CommandResult) (command : String) :
    ("sudo" ∈ pySplitWhitespace (pyLower command) → run_command shell command = (none, [])) ∧
    ("sudo" ∉ pySplitWhitespace (pyLower command) →
      run_command shell command =
        (some { stdout := (shell command).stdout
                stderr := (shell command).stderr
                returncode := (shell command).returncode }, [command])) := by
  constructor
  · intro h
    simp [run_command, is_safe_command, h]
  · intro h
    simp [run_command, is_safe_command, h]

/-- Witness for C2 at concrete commands: `"sudo rm -rf /"` is rejected with
no spawn, `"false"`-like failing commands still return their record. -/
theorem run_command_sudo_policy_witness :
    run_command shellEcho "sudo rm -rf /" = (none, []) ∧
    run_command shellEcho "ls -la" = (some (shellEcho "ls -la"), ["ls -la"]) := by
  constructor
  · exact (run_command_sudo_policy shellEcho "sudo rm -rf /").1 (by decide)
  · exact (run_command_sudo_policy shellEcho "ls -la").2 (by decide)

/-- C7: the claim states the working directory is restored on every exit
path. Cancellation does restore it, but on normal completion the code rebinds
`original_dir = os.getcwd()` after having already changed into the project
folder, so the final `os.chdir` is a no-op and the process stays in the
project folder — contradicting the adjacent comment "Return to original
directory". Starting in `/home/user` with project folder `projects/app`, the
final working directory is `/home/user/projects/app`, not `/home/user`. -/
theorem cwd_not_restored_on_completion :
    mainFinalCwd "/home/user" "projects/app" true = "/home/user" ∧
    mainFinalCwd "/home/user" "projects/app" false = "/home/user/projects/app" ∧
    mainFinalCwd "/home/user" "projects/app" false ≠ "/home/user" := by
  refine ⟨by decide, by decide, by decide⟩

/-! ## Helper lemmas about the loops -/

/-- When the provider reply is `ok` and carries no completion phrase on a
plain-text turn, one generation iteration continues and advances the step
counter. -/
theorem genStep_next (cwd : String) (shell : String → CommandResult) (script : Script)
    (st : GenState)
    (h : ∀ n, ∃ r, script n = Except.ok r ∧ genCompletionPhrase r.content = false ∧
         featCompletionPhrase r.content = false) :
    (genStep cwd shell script st).1 = .next ∧
    (genStep cwd shell script st).2.step = st.step + 1 := by
  obtain ⟨r, hok, hg, -⟩ := h st.calls
  by_cases htc : r.tool_calls = []
  · simp [genStep, hok, htc, hg]
  · simp [genStep, hok, htc]

/-- Under the same hypothesis the generation loop consumes all its fuel,
adding it to the step counter. -/
theorem genLoop_steps (cwd : String) (shell : String → CommandResult) (script : Script)
    (h : ∀ n, ∃ r, script n = Except.ok r ∧ genCompletionPhrase r.content = false ∧
         featCompletionPhrase r.content = false) :
    ∀ (fuel : Nat) (st : GenState),
      (genLoop cwd shell script fuel st).step = st.step + fuel := by
  intro fuel
  induction fuel with
  | zero => intro st; simp [genLoop]
  | succ n ih =>
    intro st
    obtain ⟨h1, h2⟩ := genStep_next cwd shell script st h
    rcases hg : genStep cwd shell script st with ⟨o, st1⟩
    rw [hg] at h1 h2
    simp only at h1 h2
    subst h1
    show (genLoop cwd shell script (n + 1) st).step = st.step + (n + 1)
    unfold genLoop
    rw [hg]
    rw [ih st1, h2]
    omega

/-- Feature-loop analogue of `genStep_next`. -/
theorem featStep_next (cwd : String) (shell : String → CommandResult) (script : Script)
    (existing : List String) (st : FeatState)
    (h : ∀ n, ∃ r, script n = Except.ok r ∧ genCompletionPhrase r.content = false ∧
         featCompletionPhrase r.content = false) :
    (featStep cwd shell script existing st).1 = .next ∧
    (featStep cwd shell script existing st).2.step = st.step + 1 := by
  obtain ⟨r, hok, -, hf⟩ := h st.calls
  by_cases htc : r.tool_calls = []
  · simp [featStep, hok, htc, hf]
  · simp [featStep, hok, htc]

/-- Feature-loop analogue of `genLoop_steps`. -/
theorem featLoop_steps (cwd : String) (shell : String → CommandResult) (script : Script)
    (existing : List String)
    (h : ∀ n, ∃ r, script n = Except.ok r ∧ genCompletionPhrase r.content = false ∧
         featCompletionPhrase r.content = false) :
    ∀ (fuel : Nat) (st : FeatState),
      (featLoop cwd shell script existing fuel st).step = st.step + fuel := by
  intro fuel
  induction fuel with
  | zero => intro st; simp [featLoop]
  | succ n ih =>
    intro st
    obtain ⟨h1, h2⟩ := featStep_next cwd shell script existing st h
    rcases hg : featStep cwd shell script existing st with ⟨o, st1⟩
    rw [hg] at h1 h2
    simp only at h1 h2
    subst h1
    show (featLoop cwd shell script existing (n + 1) st).step = st.step + (n + 1)
    unfold featLoop
    rw [hg]
    rw [ih st1, h2]
    omega

/-- The post-loop summary stage on a successful summary call. -/
theorem genFinish_ok (script : Script) (pt pn : String) (st : GenState) (r : ModelReply)
    (hok : script st.calls = Except.ok r) :
    (genFinish script pt pn st).2 = .ok
      { project_name := pn
        project_type := pt
        total_steps := st.step
        total_files := st.generated_files.length
        total_directories := st.generated_dirs.length
        files_created := st.generated_files
        directories_created := st.generated_dirs
        summary := r.content
        actions := st.actions } := by
  simp [genFinish, hok]

/-- The post-loop summary stage on a raising summary call. -/
theorem genFinish_error (script : Script) (pt pn : String) (st : GenState) (e : String)
    (he : script st.calls = Except.error e) :
    (genFinish script pt pn st).2 = .error e := by
  simp [genFinish, he]

/-- Feature analogue of `genFinish_ok`. -/
theorem featFinish_ok (script : Script) (pt pn fd : String) (st : FeatState) (r : ModelReply)
    (hok : script st.calls = Except.ok r) :
    (featFinish script pt pn fd st).2 = .ok
      { project_name := pn
        project_type := pt
        feature_description := fd
        total_steps := st.step
        total_new_files := st.new_files.length
        total_modified_files := st.modified_files.length
        total_new_directories := st.new_dirs.length
        new_files := st.new_files
        modified_files := st.modified_files
        new_directories := st.new_dirs
        summary := r.content
        actions := st.actions } := by
  simp [featFinish, hok]

/-- Feature analogue of `genFinish_error`. -/
theorem featFinish_error (script : Script) (pt pn fd : String) (st : FeatState) (e : String)
    (he : script st.calls = Except.error e) :
    (featFinish script pt pn fd st).2 = .error e := by
  simp [featFinish, he]

/-- C3: against a model that never replies with a completion phrase and never
raises, `generate_project` runs its loop for exactly its budget of 25 steps
and `add_feature_to_project` for exactly its budget of 15 steps, and each
returns a result whose `total_steps` equals that budget. -/
theorem budget_exhaustion (cwd : String) (shell : String → CommandResult) (script : Script)
    (pt pn fd : String) (initG initF : List Msg) (fsG fsF : FS) (existing : List String)
    (h : ∀ n, ∃ r, script n = Except.ok r ∧ genCompletionPhrase r.content = false ∧
         featCompletionPhrase r.content = false) :
    (∃ res, (generate_project cwd shell script pt pn initG fsG).2 = .ok res ∧
       res.total_steps = 25) ∧
    (∃ res, (add_feature_to_project cwd shell script pt pn fd existing initF fsF).2 = .ok res ∧
       res.total_steps = 15) := by
  constructor
  · obtain ⟨r, hok, -, -⟩ :=
      h (genLoop cwd shell script genMaxSteps (initGenState initG fsG)).calls
    refine ⟨_, genFinish_ok script pt pn _ r hok, ?_⟩
    have hs := genLoop_steps cwd shell script h genMaxSteps (initGenState initG fsG)
    simpa [initGenState, genMaxSteps] using hs
  · obtain ⟨r, hok, -, -⟩ :=
      h (featLoop cwd shell script existing featMaxSteps (initFeatState initF fsF)).calls
    refine ⟨_, featFinish_ok script pt pn fd _ r hok, ?_⟩
    have hs := featLoop_steps cwd shell script existing h featMaxSteps (initFeatState initF fsF)
    simpa [initFeatState, featMaxSteps] using hs

/-- Witness for C3: the constant "continuing" model exhausts both budgets. -/
theorem budget_exhaustion_witness :
    (∃ res, (generate_project cwdDemo shellEcho scriptKeepGoing "Python" "demo" [] fsDemo).2
        = .ok res ∧ res.total_steps = 25) ∧
    (∃ res, (add_feature_to_project cwdDemo shellEcho scriptKeepGoing "Python" "demo" "auth" []
        [] fsDemo).2 = .ok res ∧ res.total_steps = 15) :=
  budget_exhaustion cwdDemo shellEcho scriptKeepGoing "Python" "demo" "auth" [] [] fsDemo fsDemo []
    (fun _ => ⟨⟨"continuing", []⟩, rfl, by decide, by decide⟩)

/-- C4: on a plain-text assistant turn, each loop stops at that step exactly
when the reply text (lowercased) contains one of its fixed completion
phrases; otherwise it appends the assistant reply followed by the synthetic
continue message and iterates; a turn carrying tool calls always continues
and never triggers the completion check. -/
theorem completion_phrase_check (cwd : String) (shell : String → CommandResult)
    (script : Script) (existing : List String) (stG : GenState) (stF : FeatState)
    (r : ModelReply) (hG : script stG.calls = Except.ok r)
    (hF : script stF.calls = Except.ok r) :
    (r.tool_calls = [] →
      ((genStep cwd shell script stG).1 = .done ↔ genCompletionPhrase r.content = true) ∧
      (genCompletionPhrase r.content = false →
        genStep cwd shell script stG = (.next,
          { stG with
            step := stG.step + 1
            calls := stG.calls + 1
            messages := stG.messages ++ [.assistant r.content [], .user genContinueMsg] }))) ∧
    (r.tool_calls ≠ [] → (genStep cwd shell script stG).1 = .next) ∧
    (r.tool_calls = [] →
      ((featStep cwd shell script existing stF).1 = .done ↔
         featCompletionPhrase r.content = true) ∧
      (featCompletionPhrase r.content = false →
        featStep cwd shell script existing stF = (.next,
          { stF with
            step := stF.step + 1
            calls := stF.calls + 1
            messages := stF.messages ++ [.assistant r.content [], .user featContinueMsg] }))) ∧
    (r.tool_calls ≠ [] → (featStep cwd shell script existing stF).1 = .next) := by
  refine ⟨fun htc => ⟨?_, fun hp => ?_⟩, fun htc => ?_, fun htc => ⟨?_, fun hp => ?_⟩,
    fun htc => ?_⟩
  · by_cases hp : genCompletionPhrase r.content <;> simp [genStep, hG, htc, hp]
  · simp [genStep, hG, htc, hp]
  · simp [genStep, hG, htc]
  · by_cases hp : featCompletionPhrase r.content <;> simp [featStep, hF, htc, hp]
  · simp [featStep, hF, htc, hp]
  · simp [featStep, hF, htc]

/-- Witness for C4: a reply containing "The project generation is complete."
with no tool calls stops the generation loop at that step. -/
theorem completion_phrase_check_witness :
    (genStep cwdDemo shellEcho scriptDone (initGenState [] fsDemo)).1 = .done := by
  have h := completion_phrase_check cwdDemo shellEcho scriptDone []
    (initGenState [] fsDemo) (initFeatState [] fsDemo)
    ⟨"The project generation is complete.", []⟩ rfl rfl
  exact (h.1 rfl).1.mpr (by decide)

/-- C5 (amended): after the loop ends, exactly one extra non-tool model call
(the one at call index `st.calls` of the loop-final state, bumping the call
count by one) is issued to obtain the free-text summary; when it succeeds its
text becomes `summary` and the loop-computed fields are returned unchanged,
but when it raises the exception propagates to the caller and no result
record is returned (the summary is not simply left empty). -/
theorem post_loop_summary (cwd : String) (shell : String → CommandResult) (script : Script)
    (pt pn fd : String) (initG : List Msg) (fsG : FS) (stG : GenState) (stF : FeatState) :
    generate_project cwd shell script pt pn initG fsG =
      genFinish script pt pn (genLoop cwd shell script genMaxSteps (initGenState initG fsG)) ∧
    (genFinish script pt pn stG).1.calls = stG.calls + 1 ∧
    (∀ e, script stG.calls = Except.error e → (genFinish script pt pn stG).2 = .error e) ∧
    (∀ r, script stG.calls = Except.ok r →
      (genFinish script pt pn stG).2 = .ok
        { project_name := pn
          project_type := pt
          total_steps := stG.step
          total_files := stG.generated_files.length
          total_directories := stG.generated_dirs.length
          files_created := stG.generated_files
          directories_created := stG.generated_dirs
          summary := r.content
          actions := stG.actions }) ∧
    (featFinish script pt pn fd stF).1.calls = stF.calls + 1 ∧
    (∀ e, script stF.calls = Except.error e → (featFinish script pt pn fd stF).2 = .error e) ∧
    (∀ r, script stF.calls = Except.ok r →
      (featFinish script pt pn fd stF).2 = .ok
        { project_name := pn
          project_type := pt
          feature_description := fd
          total_steps := stF.step
          total_new_files := stF.new_files.length
          total_modified_files := stF.modified_files.length
          total_new_directories := stF.new_dirs.length
          new_files := stF.new_files
          modified_files := stF.modified_files
          new_directories := stF.new_dirs
          summary := r.content
          actions := stF.actions }) := by
  refine ⟨rfl, ?_, fun e he => genFinish_error script pt pn stG e he,
    fun r hr => genFinish_ok script pt pn stG r hr, ?_,
    fun e he => featFinish_error script pt pn fd stF e he,
    fun r hr => featFinish_ok script pt pn fd stF r hr⟩
  · rcases hs : script stG.calls with e | r <;> simp [genFinish, hs]
  · rcases hs : script stF.calls with e | r <;> simp [featFinish, hs]

/-- Witness for C5 (amended): with a model that completes on turn one and
raises on the summary call, the summary-stage error propagates. -/
theorem post_loop_summary_witness :
    (genFinish scriptDoneThenRaise "t" "n"
      (genLoop cwdDemo shellEcho scriptDoneThenRaise genMaxSteps (initGenState [] fsDemo))).2
      = .error "boom" := by
  have h := post_loop_summary cwdDemo shellEcho scriptDoneThenRaise "t" "n" "f" [] fsDemo
    (genLoop cwdDemo shellEcho scriptDoneThenRaise genMaxSteps (initGenState [] fsDemo))
    (initFeatState [] fsDemo)
  exact h.2.2.1 "boom" (by rfl)

/-- Counterexample for C5 as stated: the loop completes normally at step 1,
the summary call raises, and `generate_project` propagates the exception
instead of returning the record with an empty summary that the claim
predicts. -/
theorem post_loop_summary_failure_ce :
    (genLoop cwdDemo shellEcho scriptDoneThenRaise genMaxSteps (initGenState [] fsDemo)).step
      = 1 ∧
    (generate_project cwdDemo shellEcho scriptDoneThenRaise "t" "n" [] fsDemo).2
      = Except.error "boom" ∧
    (generate_project cwdDemo shellEcho scriptDoneThenRaise "t" "n" [] fsDemo).2 ≠ .ok
      { project_name := "n"
        project_type := "t"
        total_steps := 1
        total_files := 0
        total_directories := 0
        files_created := []
        directories_created := []
        summary := ""
        actions := [] } := by
  refine ⟨rfl, rfl, ?_⟩
  have h1 : (generate_project cwdDemo shellEcho scriptDoneThenRaise "t" "n" [] fsDemo).2
      = Except.error "boom" := rfl
  rw [h1]
  simp

/-- C6 (amended): a provider raise during a loop iteration makes that
iteration fail, appending exactly one `{step, error}` record to the action
log and leaving every other accumulator untouched; the loop then stops
immediately (whatever fuel remains, there is no retry); the partial results
are returned to the caller provided the post-loop summary call succeeds — if
the summary call also raises, the exception propagates instead. -/
theorem provider_error_aborts (cwd : String) (shell : String → CommandResult) (script : Script)
    (pt pn : String) (st : GenState) (e : String) (n : Nat)
    (h : script st.calls = Except.error e) :
    genStep cwd shell script st = (.failed,
      { st with
        step := st.step + 1
        calls := st.calls + 1
        actions := st.actions ++ [.failure (st.step + 1) e] }) ∧
    genLoop cwd shell script (n + 1) st =
      { st with
        step := st.step + 1
        calls := st.calls + 1
        actions := st.actions ++ [.failure (st.step + 1) e] } ∧
    (∀ r, script (st.calls + 1) = Except.ok r →
      (genFinish script pt pn (genLoop cwd shell script (n + 1) st)).2 = .ok
        { project_name := pn
          project_type := pt
          total_steps := st.step + 1
          total_files := st.generated_files.length
          total_directories := st.generated_dirs.length
          files_created := st.generated_files
          directories_created := st.generated_dirs
          summary := r.content
          actions := st.actions ++ [.failure (st.step + 1) e] }) := by
  have h1 : genStep cwd shell script st = (.failed,
      { st with
        step := st.step + 1
        calls := st.calls + 1
        actions := st.actions ++ [.failure (st.step + 1) e] }) := by
    simp [genStep, h]
  have h2 : genLoop cwd shell script (n + 1) st =
      { st with
        step := st.step + 1
        calls := st.calls + 1
        actions := st.actions ++ [.failure (st.step + 1) e] } := by
    unfold genLoop
    rw [h1]
  refine ⟨h1, h2, fun r hr => ?_⟩
  rw [h2]
  exact genFinish_ok script pt pn _ r hr

/-- Witness for C6 (amended): a raise on the first call aborts the loop at
step 1 and, the summary call succeeding, the error record and the (empty)
partial results are returned. -/
theorem provider_error_aborts_witness :
    (genFinish scriptRaiseThenOk "t" "n"
      (genLoop cwdDemo shellEcho scriptRaiseThenOk 25 (initGenState [] fsDemo))).2 = .ok
      { project_name := "n"
        project_type := "t"
        total_steps := 1
        total_files := 0
        total_directories := 0
        files_created := []
        directories_created := []
        summary := "summary text"
        actions := [.failure 1 "io error"] } := by
  have h := provider_error_aborts cwdDemo shellEcho scriptRaiseThenOk "t" "n"
    (initGenState [] fsDemo) "io error" 24 rfl
  exact h.2.2 ⟨"summary text", []⟩ rfl

/-- Counterexample for C6 as stated: when the provider is down for the
summary call as well (here it raises on every call), the error record is in
the loop-final action log but `generate_project` raises and returns no
partial results at all. -/
theorem provider_error_loses_partials_ce :
    (genLoop cwdDemo shellEcho scriptAlwaysRaise genMaxSteps (initGenState [] fsDemo)).actions
      = [.failure 1 "connection refused"] ∧
    (generate_project cwdDemo shellEcho scriptAlwaysRaise "t" "n" [] fsDemo).2
      = Except.error "connection refused" :=
  ⟨rfl, rfl⟩

/-- C8: in feature addition a `write_to_file` tool call is classified as a
new file exactly when its mode is `"w"` and its filename is absent from the
known existing file list; in every other case (append mode, or a filename
already in the existing list) it is classified as modified, with the
modified list deduplicated. -/
theorem write_classification (cwd : String) (shell : String → CommandResult) (script : Script)
    (existing : List String) (st : FeatState) (i : Nat) (f c m content : String)
    (h : script st.calls = Except.ok ⟨content, [⟨i, .write_to_file f c m⟩]⟩) :
    (featStep cwd shell script existing st).2.new_files =
      (if m = "w" ∧ f ∉ existing then st.new_files ++ [f] else st.new_files) ∧
    (featStep cwd shell script existing st).2.modified_files =
      (if m = "w" ∧ f ∉ existing then st.modified_files
       else if f ∈ st.modified_files then st.modified_files
       else st.modified_files ++ [f]) := by
  by_cases hm : m = "w" ∧ f ∉ existing
  · constructor <;> simp [featStep, h, handleToolCalls, trackFeat, hm]
  · by_cases hf : f ∈ st.modified_files <;>
      constructor <;> simp [featStep, h, handleToolCalls, trackFeat, hm, hf]

/-- Witness for C8 at the specification's two examples: appending to
`README.md` (present in the existing list) classifies it as modified, and
overwriting `newfile.py` (absent) classifies it as new. -/
theorem write_classification_witness :
    (featStep cwdDemo shellEcho scriptAppendReadme ["README.md"]
      (initFeatState [] fsDemo)).2.modified_files = ["README.md"] ∧
    (featStep cwdDemo shellEcho scriptAppendReadme ["README.md"]
      (initFeatState [] fsDemo)).2.new_files = [] ∧
    (featStep cwdDemo shellEcho scriptWriteNewfile ["README.md"]
      (initFeatState [] fsDemo)).2.new_files = ["newfile.py"] ∧
    (featStep cwdDemo shellEcho scriptWriteNewfile ["README.md"]
      (initFeatState [] fsDemo)).2.modified_files = [] := by
  have h1 := write_classification cwdDemo shellEcho scriptAppendReadme ["README.md"]
    (initFeatState [] fsDemo) 1 "README.md" "x" "a" "" rfl
  have h2 := write_classification cwdDemo shellEcho scriptWriteNewfile ["README.md"]
    (initFeatState [] fsDemo) 1 "newfile.py" "x" "w" "" rfl
  refine ⟨?_, ?_, ?_, ?_⟩
  · rw [h1.2]; simp [initFeatState]
  · rw [h1.1]; simp [initFeatState]
  · rw [h2.1]; simp [initFeatState]
  · rw [h2.2]; simp [initFeatState]

/-- Unfolding lemma: one step of the generation-loop bookkeeping fold. -/
theorem trackGen_cons (step : Nat) (p : ToolCall × (Nat × ToolResult))
    (t : List (ToolCall × (Nat × ToolResult))) (files dirs : List String)
    (actions : List ActionRecord) :
    trackGen step (p :: t) files dirs actions =
      trackGen step t
        (match p.1.fn with | .write_to_file f _ _ => files ++ [f] | _ => files)
        (match p.1.fn with | .create_directory d => dirs ++ [d] | _ => dirs)
        (actions ++ [.action step p.1.fn p.2.2]) := by
  cases hfn : p.1.fn <;> simp [trackGen, hfn]

/-- The generation-loop bookkeeping appends exactly the filenames of the
`write_to_file` calls and the directory names of the `create_directory`
calls, in order, without consulting the tool results. -/
theorem trackGen_spec (step : Nat) :
    ∀ (pairs : List (ToolCall × (Nat × ToolResult))) (files dirs : List String)
      (actions : List ActionRecord),
      (trackGen step pairs files dirs actions).1 =
        files ++ pairs.filterMap (fun p => writeNameOf p.1) ∧
      (trackGen step pairs files dirs actions).2.1 =
        dirs ++ pairs.filterMap (fun p => dirNameOf p.1) := by
  intro pairs
  induction pairs with
  | nil => intro files dirs actions; simp [trackGen]
  | cons p t ih =>
    intro files dirs actions
    rw [trackGen_cons]
    cases hfn : p.1.fn <;>
      simp [List.filterMap_cons, writeNameOf, dirNameOf, hfn, ih, List.append_assoc]

/-- The dispatcher produces exactly one response per tool call. -/
theorem handleToolCalls_length (cwd : String) (shell : String → CommandResult) :
    ∀ (calls : List ToolCall) (acc : List (Nat × ToolResult)) (fs : FS),
      (calls.foldl (fun acc tc =>
          let r := dispatchTool cwd shell acc.2 tc.fn
          (acc.1 ++ [(tc.id, r.1)], r.2)) (acc, fs)).1.length = acc.length + calls.length := by
  intro calls
  induction calls with
  | nil => intro acc fs; simp
  | cons tc t ih =>
    intro acc fs
    simp only [List.foldl_cons]
    rw [ih]
    simp
    omega

/-- Filtering a zip through a projection of the first component only depends
on the first list (when the second is long enough). -/
theorem filterMap_fst_zip {α β γ : Type _} (g : α → Option γ) (l : List α) (l' : List β)
    (hlen : l.length ≤ l'.length) :
    (l.zip l').filterMap (fun p => g p.1) = l.filterMap g := by
  have h1 : ((l.zip l').map Prod.fst).filterMap g = (l.zip l').filterMap (fun p => g p.1) := by
    rw [List.filterMap_map]
    rfl
  rw [← h1, List.map_fst_zip l l' hlen]

/-- C9: in the generation loop, every `write_to_file` tool call appends its
filename to the created-files list and every `create_directory` call appends
its directory name to the created-directories list, unconditionally — the
appended names are a pure projection of the requested calls, independent of
the tool results (failed or duplicate operations included) — and the result's
`total_files` / `total_directories` are the lengths of those lists, so they
count tool-call invocations. -/
theorem gen_tracking_counts_invocations (cwd : String) (shell : String → CommandResult)
    (script : Script) (st : GenState) (r : ModelReply) (pt pn : String)
    (h : script st.calls = Except.ok r) :
    (genStep cwd shell script st).2.generated_files =
      st.generated_files ++ r.tool_calls.filterMap writeNameOf ∧
    (genStep cwd shell script st).2.generated_dirs =
      st.generated_dirs ++ r.tool_calls.filterMap dirNameOf ∧
    (∀ st1 res, (genFinish script pt pn st1).2 = .ok res →
      res.files_created = st1.generated_files ∧
      res.total_files = st1.generated_files.length ∧
      res.directories_created = st1.generated_dirs ∧
      res.total_directories = st1.generated_dirs.length) := by
  have hmain : (genStep cwd shell script st).2.generated_files =
      st.generated_files ++ r.tool_calls.filterMap writeNameOf ∧
      (genStep cwd shell script st).2.generated_dirs =
      st.generated_dirs ++ r.tool_calls.filterMap dirNameOf := by
    by_cases htc : r.tool_calls = []
    · by_cases hp : genCompletionPhrase r.content <;>
        simp [genStep, h, htc, hp]
    · have hlen : (handleToolCalls cwd shell st.fs r.tool_calls).1.length
          = r.tool_calls.length := by
        have := handleToolCalls_length cwd shell r.tool_calls [] st.fs
        simpa [handleToolCalls] using this
      have hspec := trackGen_spec (st.step + 1)
        (r.tool_calls.zip (handleToolCalls cwd shell st.fs r.tool_calls).1)
        st.generated_files st.generated_dirs st.actions
      have hw : (r.tool_calls.zip (handleToolCalls cwd shell st.fs r.tool_calls).1).filterMap
          (fun p => writeNameOf p.1) = r.tool_calls.filterMap writeNameOf :=
        filterMap_fst_zip writeNameOf _ _ (le_of_eq hlen.symm)
      have hd : (r.tool_calls.zip (handleToolCalls cwd shell st.fs r.tool_calls).1).filterMap
          (fun p => dirNameOf p.1) = r.tool_calls.filterMap dirNameOf :=
        filterMap_fst_zip dirNameOf _ _ (le_of_eq hlen.symm)
      constructor
      · simpa [genStep, h, htc, hw] using hspec.1
      · simpa [genStep, h, htc, hd] using hspec.2
  refine ⟨hmain.1, hmain.2, fun st1 res hres => ?_⟩
  rcases hs : script st1.calls with e | r1
  · rw [genFinish_error script pt pn st1 e hs] at hres
    exact absurd hres (by simp)
  · rw [genFinish_ok script pt pn st1 r1 hs] at hres
    have := (Except.ok.injEq _ _).mp hres.symm
    subst this
    exact ⟨rfl, rfl, rfl, rfl⟩

/-- Witness for C9: two identical writes to a path outside the sandbox both
fail (`success := false` in the action log) yet both filenames are appended,
giving a created-files list of length 2 for zero files actually created. -/
theorem gen_tracking_counts_invocations_witness :
    (genStep cwdDemo shellEcho scriptUnsafeWrites (initGenState [] fsDemo)).2.generated_files
      = ["/etc/passwd", "/etc/passwd"] ∧
    (genStep cwdDemo shellEcho scriptUnsafeWrites (initGenState [] fsDemo)).2.fs = fsDemo ∧
    (genStep cwdDemo shellEcho scriptUnsafeWrites (initGenState [] fsDemo)).2.actions
      = [.action 1 (.write_to_file "/etc/passwd" "x" "w") (.jsuccess false),
         .action 1 (.write_to_file "/etc/passwd" "x" "w") (.jsuccess false)] := by
  have h := gen_tracking_counts_invocations cwdDemo shellEcho scriptUnsafeWrites
    (initGenState [] fsDemo)
    ⟨"", [⟨1, .write_to_file "/etc/passwd" "x" "w"⟩, ⟨2, .write_to_file "/etc/passwd" "x" "w"⟩]⟩
    "t" "n" rfl
  refine ⟨?_, by rfl, by rfl⟩
  rw [h.1]
  simp [initGenState, writeNameOf]

/-- The feature-addition bookkeeping preserves distinctness of the
modified-files list (it only appends a name after checking it is absent). -/
theorem trackFeat_modified_nodup (existing : List String) (step : Nat) :
    ∀ (pairs : List (ToolCall × (Nat × ToolResult))) (modified newF dirs : List String)
      (actions : List ActionRecord),
      modified.Nodup →
      ((trackFeat existing step pairs modified newF dirs actions).1).Nodup := by
  intro pairs
  induction pairs with
  | nil => intro modified newF dirs actions h; simpa [trackFeat] using h
  | cons p t ih =>
    intro modified newF dirs actions h
    obtain ⟨⟨i, fn⟩, ir⟩ := p
    cases fn with
    | read_file f => simpa [trackFeat] using ih _ _ _ _ h
    | get_file_metadata f => simpa [trackFeat] using ih _ _ _ _ h
    | list_directory_contents d => simpa [trackFeat] using ih _ _ _ _ h
    | run_command c => simpa [trackFeat] using ih _ _ _ _ h
    | create_directory d => simpa [trackFeat] using ih _ _ _ _ h
    | write_to_file f c m =>
      by_cases h1 : m = "w" ∧ f ∉ existing
      · simpa [trackFeat, h1] using ih _ _ _ _ h
      · by_cases h2 : f ∈ modified
        · simpa [trackFeat, h1, h2] using ih _ _ _ _ h
        · have hnd : (modified ++ [f]).Nodup := by
            simp [List.nodup_append, h, h2]
          simpa [trackFeat, h1, h2] using ih _ _ _ _ hnd

/-- One feature-loop iteration preserves distinctness of the modified-files
list. -/
theorem featStep_modified_nodup (cwd : String) (shell : String → CommandResult)
    (script : Script) (existing : List String) (st : FeatState)
    (h : st.modified_files.Nodup) :
    ((featStep cwd shell script existing st).2.modified_files).Nodup := by
  rcases hs : script st.calls with e | r
  · simpa [featStep, hs] using h
  · by_cases htc : r.tool_calls = []
    · by_cases hp : featCompletionPhrase r.content <;>
        simpa [featStep, hs, htc, hp] using h
    · have hnd := trackFeat_modified_nodup existing (st.step + 1)
        (r.tool_calls.zip (handleToolCalls cwd shell st.fs r.tool_calls).1)
        st.modified_files st.new_files st.new_dirs st.actions h
      simpa [featStep, hs, htc] using hnd

/-- The feature loop preserves distinctness of the modified-files list. -/
theorem featLoop_modified_nodup (cwd : String) (shell : String → CommandResult)
    (script : Script) (existing : List String) :
    ∀ (fuel : Nat) (st : FeatState), st.modified_files.Nodup →
      ((featLoop cwd shell script existing fuel st).modified_files).Nodup := by
  intro fuel
  induction fuel with
  | zero => intro st h; simpa [featLoop] using h
  | succ n ih =>
    intro st h
    have hstep := featStep_modified_nodup cwd shell script existing st h
    rcases hg : featStep cwd shell script existing st with ⟨o, st1⟩
    rw [hg] at hstep
    unfold featLoop
    rw [hg]
    cases o with
    | next => exact ih st1 hstep
    | done => exact hstep
    | failed => exact hstep

/-- C10: in feature addition the modified-files list never contains
duplicates (membership is checked before appending), while the new-files list
can contain duplicates, and one filename can appear in both lists within a
session (first written with mode `"w"` while absent from the existing list,
then written again with mode `"a"`). -/
theorem feat_list_duplication :
    (∀ (cwd : String) (shell : String → CommandResult) (script : Script)
       (existing : List String) (fuel : Nat) (initMsgs : List Msg) (fs : FS),
       ((featLoop cwd shell script existing fuel
          (initFeatState initMsgs fs)).modified_files).Nodup) ∧
    ¬ ((featLoop cwdDemo shellEcho scriptDupNew [] featMaxSteps
        (initFeatState [] fsDemo)).new_files).Nodup ∧
    "a.py" ∈ (featLoop cwdDemo shellEcho scriptNewThenAppend [] featMaxSteps
        (initFeatState [] fsDemo)).new_files ∧
    "a.py" ∈ (featLoop cwdDemo shellEcho scriptNewThenAppend [] featMaxSteps
        (initFeatState [] fsDemo)).modified_files := by
  refine ⟨fun cwd shell script existing fuel initMsgs fs =>
    featLoop_modified_nodup cwd shell script existing fuel _ (by simp [initFeatState]),
    by decide, by decide, by decide⟩
